import Mathlib

/-!
Verification of scripts/ensure_model_metadata.py.

The script reads a Piper JSON config, derives nine string-valued metadata
fields (build_metadata / derive_language_and_voice), compares them against
the ONNX model's existing metadata table, and appends the missing entries,
saving the file only when something was added (patch_model / main).

The embedding below models JSON values as the inductive `Json`, Python dicts
as association lists with last-binding-wins lookup (`pyDictGet`, matching
how CPython's json module builds dicts from possibly-duplicated keys), and
the ONNX model file by its metadata_props table, a list of key/value string
pairs, together with a Boolean recording whether onnx.save was invoked.
Python operations that can raise (attribute access on a non-dict, assigning
a non-string to a protobuf string field) are modelled with Option.
-/

/-- A JSON value as produced by Python's json.load.  Numbers are modelled as
integers; the Piper configs the script consumes use integer fields only. -/
inductive Json where
  | null : Json
  | bool : Bool → Json
  | num : Int → Json
  | str : String → Json
  | arr : List Json → Json
  | obj : List (String × Json) → Json

/-- Python dict lookup, `d.get(k)`: association-list lookup where a later
binding for the same key wins (CPython keeps the last duplicate when
building a dict from JSON). -/
def pyDictGet {α : Type} (fields : List (String × α)) (k : String) : Option α :=
  fields.foldl (fun acc kv => if kv.1 = k then some kv.2 else acc) none

/-- Python truthiness (`if x:`) of a JSON value. -/
def pyTruthy : Json → Bool
  | Json.null => false
  | Json.bool b => b
  | Json.num n => n != 0
  | Json.str s => s != ""
  | Json.arr xs => !xs.isEmpty
  | Json.obj fs => !fs.isEmpty

/-- Whether a JSON value is an object (`isinstance(x, dict)`). -/
def Json.isObj : Json → Bool
  | Json.obj _ => true
  | _ => false

/-- Whether a JSON value is a string (`isinstance(x, str)`). -/
def Json.isStr : Json → Bool
  | Json.str _ => true
  | _ => false

/-- `str.lower()` (ASCII; the script only feeds it ASCII language codes and
file names). -/
def pyLower (s : String) : String := String.mk (s.data.map Char.toLower)

/-- `str.split(sep)` for a single-character separator, on the character
list: "a_b" splits to ["a", "b"], "" to [""], "_" to ["", ""], exactly as in
Python.  (Structurally recursive so that proofs can evaluate it.) -/
def splitOnChar (c : Char) : List Char → List (List Char)
  | [] => [[]]
  | x :: xs =>
    let r := splitOnChar c xs
    if x = c then [] :: r
    else
      match r with
      | [] => [[x]]
      | y :: ys => (x :: y) :: ys

/-- `str.split(sep)` for a single-character separator (all separators the
script uses are single characters). -/
def pySplit (c : Char) (s : String) : List String :=
  (splitOnChar c s.data).map String.mk

/-- Helper for `pyTitle`: the Boolean tracks whether the previous character
was cased (a letter). -/
def pyTitleAux : Bool → List Char → List Char
  | _, [] => []
  | prevCased, c :: cs =>
    if c.isAlpha then
      (if prevCased then c.toLower else c.toUpper) :: pyTitleAux true cs
    else
      c :: pyTitleAux false cs

/-- `str.title()`: the first letter of each run of letters is upper-cased,
the rest lower-cased (ASCII). -/
def pyTitle (s : String) : String := String.mk (pyTitleAux false s.data)

/-- Index (from the left) of the last occurrence of a character in a list,
if any; used to embed `os.path.splitext`. -/
def lastIdxOf (c : Char) : List Char → Option Nat
  | [] => none
  | x :: xs =>
    match lastIdxOf c xs with
    | some i => some (i + 1)
    | none => if x = c then some 0 else none

/-- `os.path.basename` (POSIX): everything after the last slash. -/
def os_path_basename (p : String) : String :=
  (pySplit '/' p).getLastD p

/-- The root part of `os.path.splitext` applied to a slash-free name: drop
the suffix starting at the last dot, provided some earlier character of the
name is not a dot (so ".bashrc" keeps its leading-dot name whole). -/
def splitextRoot (s : String) : String :=
  match lastIdxOf '.' s.data with
  | none => s
  | some i =>
    if (s.data.take i).any (fun c => c != '.') then String.mk (s.data.take i)
    else s

/-- The ASCII apostrophe, used by the Python `repr` of strings. -/
def pyQuote : String := String.singleton (Char.ofNat 39)

mutual

/-- Python `repr` of a JSON value (string repr is modelled for strings
without quotes, backslashes or control characters, which is all the script
can meet in practice; only totality matters to the theorems below). -/
def pyRepr : Json → String
  | Json.null => "None"
  | Json.bool true => "True"
  | Json.bool false => "False"
  | Json.num n => toString n
  | Json.str s => pyQuote ++ s ++ pyQuote
  | Json.arr xs => "[" ++ String.intercalate ", " (pyReprList xs) ++ "]"
  | Json.obj fs => "\x7b" ++ String.intercalate ", " (pyReprFields fs) ++ "\x7d"

/-- `repr` of the elements of a JSON array. -/
def pyReprList : List Json → List String
  | [] => []
  | x :: xs => pyRepr x :: pyReprList xs

/-- `repr` of the fields of a JSON object. -/
def pyReprFields : List (String × Json) → List String
  | [] => []
  | kv :: fs => (pyQuote ++ kv.1 ++ pyQuote ++ ": " ++ pyRepr kv.2) :: pyReprFields fs

end

/-- Python `str()` of a JSON value: strings pass through, everything else
falls back to `repr` (which for None/True/False/ints is what `str` gives). -/
def pyStr : Json → String
  | Json.str s => s
  | j => pyRepr j

/-- The script's LANGUAGE_MAP: ISO code to the full language name sherpa-onnx
expects, verbatim from the source. -/
def LANGUAGE_MAP : List (String × String) :=
  [("af", "Afrikaans"), ("am", "Amharic"), ("ar", "Arabic"), ("bn", "Bengali"),
   ("ca", "Catalan"), ("cs", "Czech"), ("cy", "Welsh"), ("da", "Danish"),
   ("de", "German"), ("el", "Greek"), ("en", "English"), ("es", "Spanish"),
   ("et", "Estonian"), ("fa", "Persian"), ("fi", "Finnish"), ("fr", "French"),
   ("gl", "Galician"), ("gu", "Gujarati"), ("ha", "Hausa"), ("he", "Hebrew"),
   ("hi", "Hindi"), ("hr", "Croatian"), ("hu", "Hungarian"), ("id", "Indonesian"),
   ("is", "Icelandic"), ("it", "Italian"), ("ja", "Japanese"), ("jv", "Javanese"),
   ("ka", "Georgian"), ("kk", "Kazakh"), ("km", "Khmer"), ("kn", "Kannada"),
   ("ko", "Korean"), ("lb", "Luxembourgish"), ("lt", "Lithuanian"), ("lv", "Latvian"),
   ("ml", "Malayalam"), ("mn", "Mongolian"), ("mr", "Marathi"), ("ms", "Malay"),
   ("my", "Burmese"), ("ne", "Nepali"), ("nl", "Dutch"), ("no", "Norwegian"),
   ("pa", "Punjabi"), ("pl", "Polish"), ("pt", "Portuguese"), ("ro", "Romanian"),
   ("ru", "Russian"), ("sk", "Slovak"), ("sl", "Slovenian"), ("so", "Somali"),
   ("sr", "Serbian"), ("sv", "Swedish"), ("sw", "Swahili"), ("ta", "Tamil"),
   ("te", "Telugu"), ("th", "Thai"), ("tr", "Turkish"), ("uk", "Ukrainian"),
   ("ur", "Urdu"), ("vi", "Vietnamese"), ("yo", "Yoruba"), ("zh", "Chinese")]

/-- First block of derive_language_and_voice: read iso_code/region from the
config.  `lang = config.get("language", {})`; when `lang` is a dict with a
truthy `code`, split the code on `_` (iso_code from the first part, region
from the second when present).  Returns none when the code is truthy but not
a string, where Python's `code.split` raises AttributeError. -/
def configStage (config : List (String × Json)) : Option (String × String) :=
  let lang := (pyDictGet config "language").getD (Json.obj [])
  match lang with
  | Json.obj fs =>
    let code := (pyDictGet fs "code").getD (Json.str "")
    if pyTruthy code then
      match code with
      | Json.str s =>
        let parts := pySplit '_' s
        some (pyLower (parts.getD 0 ""),
              if parts.length > 1 then pyLower (parts.getD 1 "") else "")
      | _ => none
    else some ("", "")
  | _ => some ("", "")

/-- Second block of derive_language_and_voice: when the config produced no
iso_code, fall back to the model's file name.  The basename (extension
stripped) is split on `_` only when it contains `_` at all; the first part
lower-cased becomes iso_code, and when a second part exists, its portion
before the first `-` lower-cased replaces the region. -/
def filenameStage (model_path : String) (ir : String × String) : String × String :=
  let iso_code := ir.1
  let region := ir.2
  if iso_code = "" then
    let basename := splitextRoot (os_path_basename model_path)
    if basename.data.contains '_' then
      let parts := pySplit '_' basename
      (pyLower (parts.getD 0 ""),
       if parts.length > 1 then pyLower ((pySplit '-' (parts.getD 1 "")).getD 0 "")
       else region)
    else (iso_code, region)
  else ir

/-- The last lines of derive_language_and_voice: the "en" default for an
empty iso_code, `language = LANGUAGE_MAP.get(iso_code, iso_code.title())`,
and the voice identifier iso-region (or bare iso when region is empty). -/
def languageVoiceOf (ir : String × String) : String × String :=
  let iso_code := if ir.1 = "" then "en" else ir.1
  let language := (pyDictGet LANGUAGE_MAP iso_code).getD (pyTitle iso_code)
  let voice := if ir.2 = "" then iso_code else iso_code ++ "-" ++ ir.2
  (language, voice)

/-- The filename fallback followed by the final language/voice computation:
everything derive_language_and_voice does after the config stage. -/
def deriveTail (model_path : String) (ir : String × String) : String × String :=
  languageVoiceOf (filenameStage model_path ir)

/-- derive_language_and_voice from the script: config stage, filename
fallback, the "en" default, LANGUAGE_MAP lookup with title-cased fallback,
and the voice identifier iso-region (or bare iso when region is empty). -/
def derive_language_and_voice (model_path : String) (config : List (String × Json)) :
    Option (String × String) :=
  match configStage config with
  | none => none
  | some ir => some (deriveTail model_path ir)

/-- `config.get("audio", {}).get("sample_rate", 22050)`: none when the
config's audio field is present but not an object (Python raises
AttributeError on `.get` there). -/
def audioSampleRate (config : List (String × Json)) : Option Json :=
  match pyDictGet config "audio" with
  | none => some ((pyDictGet ([] : List (String × Json)) "sample_rate").getD (Json.num 22050))
  | some (Json.obj fs) => some ((pyDictGet fs "sample_rate").getD (Json.num 22050))
  | some _ => none

/-- build_metadata from the script: the nine-entry metadata dict, in the
source's insertion order.  sample_rate and n_speakers are passed through
`str()`; frontend is the raw phoneme_type config value (NOT stringified by
the source). -/
def build_metadata (model_path : String) (config : List (String × Json)) :
    Option (List (String × Json)) :=
  match audioSampleRate config with
  | none => none
  | some sample_rate =>
    let num_speakers := (pyDictGet config "num_speakers").getD (Json.num 1)
    match derive_language_and_voice model_path config with
    | none => none
    | some lv =>
      let phoneme_type := (pyDictGet config "phoneme_type").getD (Json.str "espeak")
      some [("sample_rate", Json.str (pyStr sample_rate)),
            ("n_speakers", Json.str (pyStr num_speakers)),
            ("language", Json.str lv.1),
            ("comment", Json.str "piper"),
            ("has_espeak", Json.str "1"),
            ("voice", Json.str lv.2),
            ("add_blank", Json.str "1"),
            ("frontend", phoneme_type),
            ("model_type", Json.str "vits")]

/-- Fields whose absence crashes sherpa-onnx (REQUIRED_METADATA in the
source; the Python set literal is embedded as the list of its elements in
written order). -/
def REQUIRED_METADATA : List String :=
  ["sample_rate", "n_speakers", "language", "comment", "has_espeak", "voice"]

/-- Fields that affect behavior but have safe defaults (RECOMMENDED_METADATA
in the source). -/
def RECOMMENDED_METADATA : List String :=
  ["add_blank", "frontend", "model_type"]

/-- check_metadata from the script: the model's metadata_props viewed as a
dict from key to value (later duplicate props win, as in the Python dict
comprehension). -/
def check_metadata (props : List (String × String)) (k : String) : Option String :=
  pyDictGet props k

/-- The loop body of patch_model: walk the metadata entries in order and
collect, for keys not among the model's existing keys, the new props to
append.  `prop.value = value` on a protobuf string field raises TypeError
for a non-string value, modelled by none.  existing_keys is the key set
computed once before the loop, exactly as in the source. -/
def addMissing (existing_keys : List String) :
    List (String × Json) → Option (List (String × String))
  | [] => some []
  | kv :: rest =>
    if existing_keys.contains kv.1 then addMissing existing_keys rest
    else
      match kv.2 with
      | Json.str s =>
        match addMissing existing_keys rest with
        | none => none
        | some ps => some ((kv.1, s) :: ps)
      | _ => none

/-- patch_model from the script, at the granularity of the file's metadata
table: load the model, append the metadata entries whose keys are missing,
and call onnx.save only when something was added.  The result is the file's
metadata table afterwards plus whether a save happened; none models the run
raising (non-string value for a missing key), in which case the file on
disk is never written. -/
def patch_model (props : List (String × String)) (metadata : List (String × Json)) :
    Option (List (String × String) × Bool) :=
  let existing_keys := props.map Prod.fst
  match addMissing existing_keys metadata with
  | none => none
  | some newProps =>
    if newProps.isEmpty then some (props, false)
    else some (props ++ newProps, true)

/-- main from the script, after argument handling and config parsing: build
the target metadata, diff its keys against the model's existing keys, and
call patch_model only when some key is missing; otherwise the file is not
touched.  Inputs are the model file's metadata table, the model path and the
parsed JSON config object; the result is as in `patch_model`. -/
def main_run (props : List (String × String)) (model_path : String)
    (config : List (String × Json)) : Option (List (String × String) × Bool) :=
  match build_metadata model_path config with
  | none => none
  | some metadata =>
    let existing := props.map Prod.fst
    let missing := (metadata.map Prod.fst).filter (fun k => !existing.contains k)
    if missing.isEmpty then some (props, false)
    else patch_model props metadata

/-- Removing every binding of a key from a JSON object, used to state that a
non-object language field behaves exactly as an absent one. -/
def removeField (k : String) (fields : List (String × Json)) : List (String × Json) :=
  fields.filter (fun kv => kv.1 != k)

/-- Modelled from the claim wording of C3 (not from the source): split the
basename on the FIRST underscore only; the first segment lower-cased is the
ISO code, and when a second segment (the whole remainder) exists, its
portion before the first `-` lower-cased is the region. -/
def c3ClaimIsoRegion (basename : String) : String × String :=
  match pySplit '_' basename with
  | [] => (pyLower basename, "")
  | [whole] => (pyLower whole, "")
  | first :: rest =>
    let tail := String.intercalate "_" rest
    (pyLower first, pyLower ((pySplit '-' tail).getD 0 ""))

/-- The filename rule the code actually implements, per the amended C3:
split the basename on EVERY underscore; the first segment lower-cased is the
ISO code, and when a second segment (the text between the first and second
underscores) exists, its portion before the first `-` lower-cased is the
region. -/
def c3AmendedIsoRegion (basename : String) : String × String :=
  let parts := pySplit '_' basename
  (pyLower (parts.getD 0 ""),
   if parts.length > 1 then pyLower ((pySplit '-' (parts.getD 1 "")).getD 0 "")
   else "")

/-! ### Helper lemmas -/

theorem contains_iff (l : List String) (a : String) : l.contains a = true ↔ a ∈ l := by
  simp [List.contains, List.elem_iff]

/-- Folding the dict-lookup step over entries none of whose keys match
leaves the accumulator unchanged. -/
theorem foldl_dict_no_match {α : Type} (k : String) (b : List (String × α))
    (h : ∀ kv ∈ b, kv.1 ≠ k) (acc : Option α) :
    b.foldl (fun acc kv => if kv.1 = k then some kv.2 else acc) acc = acc := by
  induction b generalizing acc with
  | nil => rfl
  | cons kv rest ih =>
    simp only [List.foldl_cons]
    rw [if_neg (h kv (by simp))]
    exact ih (fun q hq => h q (by simp [hq])) acc

/-- Appending entries whose keys avoid `k` does not change the dict view at
`k`. -/
theorem pyDictGet_append {α : Type} (a b : List (String × α)) (k : String)
    (h : ∀ kv ∈ b, kv.1 ≠ k) : pyDictGet (a ++ b) k = pyDictGet a k := by
  unfold pyDictGet
  rw [List.foldl_append]
  exact foldl_dict_no_match k b h _

/-- Removing a key from a config makes its dict lookup come out empty. -/
theorem pyDictGet_removeField (k : String) (fields : List (String × Json)) :
    pyDictGet (removeField k fields) k = none := by
  unfold removeField pyDictGet
  apply foldl_dict_no_match
  intro kv hkv
  have := (List.mem_filter.mp hkv).2
  exact bne_iff_ne.mp this

/-- The keys addMissing collects are exactly the metadata keys not among the
existing keys, in metadata order. -/
theorem addMissing_map_fst (ex : List String) (md : List (String × Json))
    (ps : List (String × String)) (h : addMissing ex md = some ps) :
    ps.map Prod.fst = (md.map Prod.fst).filter (fun k => !ex.contains k) := by
  induction md generalizing ps with
  | nil =>
    simp only [addMissing] at h
    cases h
    simp
  | cons kv rest ih =>
    simp only [addMissing] at h
    by_cases hc : ex.contains kv.1 = true
    · rw [if_pos hc] at h
      simp only [List.map_cons, List.filter_cons, hc]
      simpa using ih ps h
    · rw [if_neg hc] at h
      rw [Bool.not_eq_true] at hc
      cases hv : kv.2 with
      | str s =>
        rw [hv] at h
        cases ha : addMissing ex rest with
        | none => rw [ha] at h; cases h
        | some qs =>
          rw [ha] at h
          cases h
          simp only [List.map_cons, List.filter_cons, hc]
          simpa using ih qs ha
      | null => rw [hv] at h; cases h
      | bool b => rw [hv] at h; cases h
      | num n => rw [hv] at h; cases h
      | arr xs => rw [hv] at h; cases h
      | obj fs => rw [hv] at h; cases h

/-- Characterization of a successful run of main: the resulting table is the
old one with a block of new entries appended, the new keys are exactly the
derived keys missing from the model, and the file was saved exactly when
that block is non-empty. -/
theorem main_run_spec (props : List (String × String)) (p : String)
    (config : List (String × Json)) (md : List (String × Json))
    (m₁ : List (String × String)) (s₁ : Bool)
    (hmd : build_metadata p config = some md)
    (h : main_run props p config = some (m₁, s₁)) :
    ∃ ps : List (String × String),
      m₁ = props ++ ps ∧
      ps.map Prod.fst =
        (md.map Prod.fst).filter (fun k => !(props.map Prod.fst).contains k) ∧
      (s₁ = true ↔ ps ≠ []) := by
  unfold main_run at h
  rw [hmd] at h
  dsimp only at h
  by_cases hE :
      ((md.map Prod.fst).filter (fun k => !(props.map Prod.fst).contains k)).isEmpty = true
  · rw [if_pos hE] at h
    cases h
    exact ⟨[], by simp, (List.isEmpty_iff.mp hE).symm, by simp⟩
  · rw [if_neg hE] at h
    unfold patch_model at h
    dsimp only at h
    cases ha : addMissing (props.map Prod.fst) md with
    | none => rw [ha] at h; dsimp only at h; cases h
    | some ps =>
      rw [ha] at h
      dsimp only at h
      have hkeys := addMissing_map_fst _ _ _ ha
      by_cases hps : ps.isEmpty = true
      · exfalso
        apply hE
        rw [← hkeys]
        simp [List.isEmpty_iff.mp hps]
      · rw [if_neg hps] at h
        cases h
        refine ⟨ps, rfl, hkeys, ?_⟩
        simp [List.isEmpty_iff] at hps
        simp [hps]

theorem not_contains_iff (l : List String) (a : String) :
    (!l.contains a) = true ↔ a ∉ l := by
  constructor
  · intro h hm
    rw [(contains_iff l a).mpr hm] at h
    simp at h
  · intro h
    cases hb : l.contains a with
    | false => rfl
    | true => exact absurd ((contains_iff l a).mp hb) h

/-- A successful run presupposes a successfully built metadata dict. -/
theorem main_run_build_some (props : List (String × String)) (p : String)
    (config : List (String × Json)) (r : List (String × String) × Bool)
    (h : main_run props p config = some r) :
    ∃ md, build_metadata p config = some md := by
  unfold main_run at h
  cases hb : build_metadata p config with
  | none => rw [hb] at h; cases h
  | some md => exact ⟨md, rfl⟩

/-- The derived metadata dict always carries exactly the nine keys, in the
source's insertion order. -/
theorem build_metadata_map_fst (p : String) (config md : List (String × Json))
    (h : build_metadata p config = some md) :
    md.map Prod.fst = ["sample_rate", "n_speakers", "language", "comment",
      "has_espeak", "voice", "add_blank", "frontend", "model_type"] := by
  unfold build_metadata at h
  cases hA : audioSampleRate config with
  | none => rw [hA] at h; cases h
  | some sr =>
    rw [hA] at h
    dsimp only at h
    cases hD : derive_language_and_voice p config with
    | none => rw [hD] at h; dsimp only at h; cases h
    | some lv =>
      rw [hD] at h
      dsimp only at h
      cases h
      rfl

/-- After a successful run, every derived key is present in the model. -/
theorem main_run_superset (props : List (String × String)) (p : String)
    (config : List (String × Json)) (md : List (String × Json))
    (m₁ : List (String × String)) (s₁ : Bool)
    (hmd : build_metadata p config = some md)
    (h : main_run props p config = some (m₁, s₁)) :
    ∀ k ∈ md.map Prod.fst, k ∈ m₁.map Prod.fst := by
  obtain ⟨ps, hm, hkeys, _⟩ := main_run_spec props p config md m₁ s₁ hmd h
  intro k hk
  subst hm
  rw [List.map_append, List.mem_append]
  by_cases hc : (props.map Prod.fst).contains k = true
  · exact Or.inl ((contains_iff _ _).mp hc)
  · right
    rw [hkeys, List.mem_filter]
    rw [Bool.not_eq_true] at hc
    exact ⟨hk, by rw [hc]; rfl⟩

/-- Claim C1: the model file is saved exactly when some derived key is
missing from the existing metadata; with nothing missing the file is left
untouched, and a second run on the result of a successful run never saves
and leaves the table unchanged (idempotence). -/
theorem c1_write_only_when_missing_and_idempotent
    (props : List (String × String)) (p : String) (config : List (String × Json))
    (md : List (String × Json)) (m₁ : List (String × String)) (s₁ : Bool)
    (hmd : build_metadata p config = some md)
    (h : main_run props p config = some (m₁, s₁)) :
    (s₁ = true ↔ ∃ k, k ∈ md.map Prod.fst ∧ k ∉ props.map Prod.fst) ∧
    (s₁ = false → m₁ = props) ∧
    main_run m₁ p config = some (m₁, false) := by
  obtain ⟨ps, hm, hkeys, hs⟩ := main_run_spec props p config md m₁ s₁ hmd h
  have hsup := main_run_superset props p config md m₁ s₁ hmd h
  refine ⟨?_, ?_, ?_⟩
  · rw [hs]
    constructor
    · intro hne
      obtain ⟨q, hq⟩ := List.exists_mem_of_ne_nil ps hne
      have hmem : q.1 ∈ ps.map Prod.fst := List.mem_map.mpr ⟨q, hq, rfl⟩
      rw [hkeys] at hmem
      have h2 := List.mem_filter.mp hmem
      exact ⟨q.1, h2.1, (not_contains_iff _ _).mp h2.2⟩
    · rintro ⟨k, hk1, hk2⟩ hps
      rw [hps] at hkeys
      have hmem : k ∈ (md.map Prod.fst).filter
          (fun k => !(props.map Prod.fst).contains k) :=
        List.mem_filter.mpr ⟨hk1, (not_contains_iff _ _).mpr hk2⟩
      rw [← hkeys] at hmem
      simp at hmem
  · intro h0
    have hnil : ps = [] := by
      by_contra hne
      rw [hs.mpr hne] at h0
      cases h0
    rw [hm, hnil, List.append_nil]
  · unfold main_run
    rw [hmd]
    dsimp only
    have hfil : (md.map Prod.fst).filter (fun k => !(m₁.map Prod.fst).contains k) = [] := by
      apply List.filter_eq_nil_iff.mpr
      intro k hk
      rw [(contains_iff _ _).mpr (hsup k hk)]
      simp
    rw [hfil]
    rfl

/-- Claim C1 witness: on an empty metadata table the first run adds all nine
entries and saves; running again on the result changes nothing and performs
no save. -/
theorem c1_write_only_when_missing_and_idempotent_witness :
    main_run [("sample_rate", "22050"), ("n_speakers", "1"), ("language", "English"),
        ("comment", "piper"), ("has_espeak", "1"), ("voice", "en"), ("add_blank", "1"),
        ("frontend", "espeak"), ("model_type", "vits")] "modelfile.onnx" [] =
      some ([("sample_rate", "22050"), ("n_speakers", "1"), ("language", "English"),
        ("comment", "piper"), ("has_espeak", "1"), ("voice", "en"), ("add_blank", "1"),
        ("frontend", "espeak"), ("model_type", "vits")], false) := by
  have hmd : build_metadata "modelfile.onnx" [] =
      some [("sample_rate", Json.str "22050"), ("n_speakers", Json.str "1"),
        ("language", Json.str "English"), ("comment", Json.str "piper"),
        ("has_espeak", Json.str "1"), ("voice", Json.str "en"),
        ("add_blank", Json.str "1"), ("frontend", Json.str "espeak"),
        ("model_type", Json.str "vits")] := rfl
  have h : main_run [] "modelfile.onnx" [] =
      some ([("sample_rate", "22050"), ("n_speakers", "1"), ("language", "English"),
        ("comment", "piper"), ("has_espeak", "1"), ("voice", "en"), ("add_blank", "1"),
        ("frontend", "espeak"), ("model_type", "vits")], true) := by decide
  exact (c1_write_only_when_missing_and_idempotent [] "modelfile.onnx" [] _ _ _ hmd h).2.2

/-- Claim C2: patching never changes the value of a key that was already
present in the model's metadata, even when the derived value differs; only
keys not already present are added. -/
theorem c2_existing_values_unchanged (props : List (String × String)) (p : String)
    (config : List (String × Json)) (m₁ : List (String × String)) (s₁ : Bool)
    (k : String)
    (h : main_run props p config = some (m₁, s₁))
    (hk : k ∈ props.map Prod.fst) :
    check_metadata m₁ k = check_metadata props k := by
  obtain ⟨md, hmd⟩ := main_run_build_some props p config _ h
  obtain ⟨ps, hm, hkeys, _⟩ := main_run_spec props p config md m₁ s₁ hmd h
  subst hm
  unfold check_metadata
  apply pyDictGet_append
  intro kv hkv hEq
  have hmem : kv.1 ∈ ps.map Prod.fst := List.mem_map.mpr ⟨kv, hkv, rfl⟩
  rw [hkeys] at hmem
  have h2 := (List.mem_filter.mp hmem).2
  rw [hEq] at h2
  exact (not_contains_iff _ _).mp h2 hk

/-- Claim C2 witness: a model that already has sample_rate "16000" (differing
from the derived "22050") keeps that value across a run that patches the
other eight keys. -/
theorem c2_existing_values_unchanged_witness :
    check_metadata [("sample_rate", "16000"), ("n_speakers", "1"), ("language", "English"),
        ("comment", "piper"), ("has_espeak", "1"), ("voice", "en"), ("add_blank", "1"),
        ("frontend", "espeak"), ("model_type", "vits")] "sample_rate" =
      check_metadata [("sample_rate", "16000")] "sample_rate" := by
  have h : main_run [("sample_rate", "16000")] "modelfile.onnx" [] =
      some ([("sample_rate", "16000"), ("n_speakers", "1"), ("language", "English"),
        ("comment", "piper"), ("has_espeak", "1"), ("voice", "en"), ("add_blank", "1"),
        ("frontend", "espeak"), ("model_type", "vits")], true) := by decide
  exact c2_existing_values_unchanged [("sample_rate", "16000")] "modelfile.onnx" []
    _ true "sample_rate" h (by decide)

/-- Claim C6: after a successful run, the model's metadata table contains
the six required keys and the three recommended keys. -/
theorem c6_completeness (props : List (String × String)) (p : String)
    (config : List (String × Json)) (m₁ : List (String × String)) (s₁ : Bool)
    (h : main_run props p config = some (m₁, s₁)) :
    ∀ k, k ∈ REQUIRED_METADATA ++ RECOMMENDED_METADATA → k ∈ m₁.map Prod.fst := by
  obtain ⟨md, hmd⟩ := main_run_build_some props p config _ h
  have hkeys := build_metadata_map_fst p config md hmd
  intro k hk
  apply main_run_superset props p config md m₁ s₁ hmd h
  rw [hkeys]
  simpa [REQUIRED_METADATA, RECOMMENDED_METADATA] using hk

/-- Claim C6 witness: after patching an empty table, the required key
"voice" is present. -/
theorem c6_completeness_witness :
    "voice" ∈ (List.map Prod.fst [("sample_rate", "22050"), ("n_speakers", "1"),
      ("language", "English"), ("comment", "piper"), ("has_espeak", "1"), ("voice", "en"),
      ("add_blank", "1"), ("frontend", "espeak"), ("model_type", "vits")]) := by
  have h : main_run [] "modelfile.onnx" [] =
      some ([("sample_rate", "22050"), ("n_speakers", "1"), ("language", "English"),
        ("comment", "piper"), ("has_espeak", "1"), ("voice", "en"), ("add_blank", "1"),
        ("frontend", "espeak"), ("model_type", "vits")], true) := by decide
  exact c6_completeness [] "modelfile.onnx" [] _ true h "voice" (by decide)

/-- Claim C3 counterexample: for the basename "en_US_x-y" (more than one
underscore), the code's region is "us" (second all-split segment, then cut
at "-"), whereas the claim's split-on-the-FIRST-underscore rule predicts
region "us_x" and hence voice "en-us_x"; the program yields voice "en-us". -/
theorem c3_counterexample_multiple_underscores :
    derive_language_and_voice "en_US_x-y.onnx" [] = some ("English", "en-us") ∧
    c3ClaimIsoRegion "en_US_x-y" = ("en", "us_x") ∧
    languageVoiceOf ("en", "us_x") = ("English", "en-us_x") ∧
    ("en-us" : String) ≠ "en-us_x" := by
  refine ⟨by decide, by decide, by decide, by decide⟩

/-- Claim C3 as amended: when the config's language code is absent or empty
and the basename (extension stripped) contains an underscore, the basename
is split on EVERY underscore; the first segment lower-cased is the ISO code
(subject to the "en" default when that segment is empty), and when a second
segment exists, its portion before its first "-" lower-cased is the
region. -/
theorem c3_amended_filename_split (p : String) (config : List (String × Json))
    (hc : configStage config = some ("", ""))
    (hu : (splitextRoot (os_path_basename p)).data.contains '_' = true) :
    derive_language_and_voice p config =
      some (languageVoiceOf (c3AmendedIsoRegion (splitextRoot (os_path_basename p)))) := by
  unfold derive_language_and_voice
  rw [hc]
  unfold deriveTail filenameStage c3AmendedIsoRegion
  dsimp only
  rw [if_pos rfl, hu]
  simp

/-- Claim C3 witness: the canonical Piper name en_US-amy-medium.onnx, with no
config code, goes through the filename rule. -/
theorem c3_amended_filename_split_witness :
    derive_language_and_voice "voices/en_US-amy-medium.onnx" [] =
      some (languageVoiceOf (c3AmendedIsoRegion
        (splitextRoot (os_path_basename "voices/en_US-amy-medium.onnx")))) :=
  c3_amended_filename_split "voices/en_US-amy-medium.onnx" [] rfl (by decide)

/-- Claim C4 counterexample: for model file "fr.onnx" (no underscore in the
basename) and a config with no language code, the claim predicts ISO code
"fr" (the whole leading token, which is non-empty), giving language "French"
and voice "fr"; the program ignores the token entirely and defaults to "en",
giving language "English" and voice "en". -/
theorem c4_counterexample_leading_token_ignored :
    derive_language_and_voice "fr.onnx" [] = some ("English", "en") ∧
    splitextRoot (os_path_basename "fr.onnx") = "fr" ∧
    ("fr" : String) ≠ "" ∧
    languageVoiceOf (pyLower "fr", "") = ("French", "fr") ∧
    (("English", "en") : String × String) ≠ ("French", "fr") := by
  refine ⟨by decide, by decide, by decide, by decide, by decide⟩

/-- Claim C4 as amended: when the config provides no language code and the
basename (extension stripped) contains no underscore, the filename
contributes nothing: the region is empty and the ISO code is the "en"
default regardless of the basename's leading token, so the result is
language "English" and voice "en". -/
theorem c4_amended_no_underscore_defaults_en (p : String) (config : List (String × Json))
    (hc : configStage config = some ("", ""))
    (hu : (splitextRoot (os_path_basename p)).data.contains '_' = false) :
    derive_language_and_voice p config = some ("English", "en") := by
  unfold derive_language_and_voice
  rw [hc]
  unfold deriveTail filenameStage
  dsimp only
  rw [if_pos rfl, hu]
  simp
  rfl

/-- Claim C4 witness: modelfile.onnx with an empty config. -/
theorem c4_amended_no_underscore_defaults_en_witness :
    derive_language_and_voice "modelfile.onnx" [] = some ("English", "en") :=
  c4_amended_no_underscore_defaults_en "modelfile.onnx" [] rfl (by decide)

/-- Claim C7: the three literal cases of the language/voice derivation:
config code "en_US" gives ("English", "en-us"); config code "xx" gives the
title-cased fallback ("Xx", "xx"); no config code and a filename without
underscore gives the "en" default, ("English", "en"). -/
theorem c7_literal_cases :
    derive_language_and_voice "model.onnx"
        [("language", Json.obj [("code", Json.str "en_US")])] = some ("English", "en-us") ∧
    derive_language_and_voice "model.onnx"
        [("language", Json.obj [("code", Json.str "xx")])] = some ("Xx", "xx") ∧
    derive_language_and_voice "modelfile.onnx" [] = some ("English", "en") := by
  refine ⟨by decide, by decide, by decide⟩

/-- Claim C8: for the empty config, the derived metadata assigns
sample_rate "22050", n_speakers "1" and frontend "espeak", whatever the
model path. -/
theorem c8_empty_config_defaults (p : String) :
    ∃ md, build_metadata p [] = some md ∧
      pyDictGet md "sample_rate" = some (Json.str "22050") ∧
      pyDictGet md "n_speakers" = some (Json.str "1") ∧
      pyDictGet md "frontend" = some (Json.str "espeak") :=
  ⟨_, rfl, rfl, rfl, rfl⟩

/-- Claim C5 counterexample: the config object with audio set to the JSON
string "x" parses as a JSON object, yet building the derived metadata fails
(Python raises AttributeError on "x".get), refuting "building the derived
metadata mapping never fails on such a config". -/
theorem c5_counterexample_nonobject_audio :
    build_metadata "m.onnx" [("audio", Json.str "x")] = none := rfl

/-- Claim C5 as amended: building the derived metadata never fails on a JSON
object config provided that the audio field, when present, is itself an
object, and that language.code, when present in an object-valued language
field and truthy, is a string; missing expected fields are replaced by their
documented defaults (22050, 1, "espeak") rather than rejected. -/
theorem c5_amended_no_failure_and_defaults (p : String) (config : List (String × Json))
    (hA : ∀ v, pyDictGet config "audio" = some v → v.isObj = true)
    (hL : ∀ fs v, pyDictGet config "language" = some (Json.obj fs) →
            pyDictGet fs "code" = some v → pyTruthy v = true → v.isStr = true) :
    ∃ md, build_metadata p config = some md ∧
      (pyDictGet config "audio" = none →
        pyDictGet md "sample_rate" = some (Json.str "22050")) ∧
      (pyDictGet config "num_speakers" = none →
        pyDictGet md "n_speakers" = some (Json.str "1")) ∧
      (pyDictGet config "phoneme_type" = none →
        pyDictGet md "frontend" = some (Json.str "espeak")) := by
  obtain ⟨sr, hsr⟩ : ∃ sr, audioSampleRate config = some sr := by
    unfold audioSampleRate
    cases ha : pyDictGet config "audio" with
    | none => exact ⟨_, rfl⟩
    | some v =>
      have hobj := hA v ha
      cases v with
      | obj fs => exact ⟨_, rfl⟩
      | null => exact Bool.noConfusion hobj
      | bool b => exact Bool.noConfusion hobj
      | num n => exact Bool.noConfusion hobj
      | str s => exact Bool.noConfusion hobj
      | arr xs => exact Bool.noConfusion hobj
  obtain ⟨ir, hir⟩ : ∃ ir, configStage config = some ir := by
    unfold configStage
    cases hl : pyDictGet config "language" with
    | none => exact ⟨_, rfl⟩
    | some v =>
      cases v with
      | obj fs =>
        dsimp only [Option.getD_some]
        cases hcv : pyDictGet fs "code" with
        | none => exact ⟨_, rfl⟩
        | some cv =>
          dsimp only [Option.getD_some]
          by_cases ht : pyTruthy cv = true
          · have hstr := hL fs cv hl hcv ht
            cases cv with
            | str s => rw [if_pos ht]; exact ⟨_, rfl⟩
            | null => exact Bool.noConfusion hstr
            | bool b => exact Bool.noConfusion hstr
            | num n => exact Bool.noConfusion hstr
            | arr xs => exact Bool.noConfusion hstr
            | obj gs => exact Bool.noConfusion hstr
          · rw [if_neg ht]; exact ⟨_, rfl⟩
      | null => exact ⟨_, rfl⟩
      | bool b => exact ⟨_, rfl⟩
      | num n => exact ⟨_, rfl⟩
      | str s => exact ⟨_, rfl⟩
      | arr xs => exact ⟨_, rfl⟩
  have hD : derive_language_and_voice p config = some (deriveTail p ir) := by
    unfold derive_language_and_voice
    rw [hir]
  refine ⟨[("sample_rate", Json.str (pyStr sr)),
      ("n_speakers", Json.str (pyStr ((pyDictGet config "num_speakers").getD (Json.num 1)))),
      ("language", Json.str (deriveTail p ir).1),
      ("comment", Json.str "piper"),
      ("has_espeak", Json.str "1"),
      ("voice", Json.str (deriveTail p ir).2),
      ("add_blank", Json.str "1"),
      ("frontend", (pyDictGet config "phoneme_type").getD (Json.str "espeak")),
      ("model_type", Json.str "vits")], ?_, ?_, ?_, ?_⟩
  · unfold build_metadata
    rw [hsr]
    dsimp only
    rw [hD]
  · intro haud
    have hsr2 : audioSampleRate config = some (Json.num 22050) := by
      unfold audioSampleRate
      rw [haud]
      rfl
    have hs : sr = Json.num 22050 := by
      have := hsr.symm.trans hsr2
      injection this
    rw [hs]
    rfl
  · intro hns
    rw [hns]
    rfl
  · intro hpt
    rw [hpt]
    rfl

/-- Claim C5 witness: a config carrying only num_speakers builds fine and
fills the absent audio.sample_rate and phoneme_type with their defaults. -/
theorem c5_amended_no_failure_and_defaults_witness :
    ∃ md, build_metadata "modelfile.onnx" [("num_speakers", Json.num 3)] = some md ∧
      (pyDictGet [("num_speakers", Json.num 3)] "audio" = none →
        pyDictGet md "sample_rate" = some (Json.str "22050")) ∧
      (pyDictGet [("num_speakers", Json.num 3)] "num_speakers" = none →
        pyDictGet md "n_speakers" = some (Json.str "1")) ∧
      (pyDictGet [("num_speakers", Json.num 3)] "phoneme_type" = none →
        pyDictGet md "frontend" = some (Json.str "espeak")) :=
  c5_amended_no_failure_and_defaults "modelfile.onnx" [("num_speakers", Json.num 3)]
    (fun _ hv => nomatch hv) (fun _ _ h1 _ _ => nomatch h1)

/-- Claim C9 counterexample: with phoneme_type set to the JSON number 5, the
build succeeds but the frontend entry is that raw number, so not every value
in the derived mapping is a string (the source forwards phoneme_type without
stringifying it, despite the dict[str, str] annotation). -/
theorem c9_counterexample_nonstring_frontend :
    (build_metadata "m.onnx" [("phoneme_type", Json.num 5)]).map
      (fun md => md.all (fun kv => kv.2.isStr)) = some false := rfl

/-- Claim C9 as amended: whenever building succeeds the derived mapping has
exactly the nine keys, none omitted and no others, and every value is a
string provided the config's phoneme_type, when present, is a string (the
other eight values are unconditionally strings). -/
theorem c9_amended_nine_keys_string_values (p : String)
    (config md : List (String × Json))
    (h : build_metadata p config = some md)
    (hp : ∀ v, pyDictGet config "phoneme_type" = some v → v.isStr = true) :
    md.map Prod.fst = ["sample_rate", "n_speakers", "language", "comment", "has_espeak",
      "voice", "add_blank", "frontend", "model_type"] ∧
    ∀ kv ∈ md, kv.2.isStr = true := by
  unfold build_metadata at h
  cases hA : audioSampleRate config with
  | none => rw [hA] at h; cases h
  | some sr =>
    rw [hA] at h
    dsimp only at h
    cases hD : derive_language_and_voice p config with
    | none => rw [hD] at h; dsimp only at h; cases h
    | some lv =>
      rw [hD] at h
      dsimp only at h
      cases h
      refine ⟨rfl, ?_⟩
      intro kv hkv
      simp only [List.mem_cons, List.not_mem_nil, or_false] at hkv
      rcases hkv with h1 | h2 | h3 | h4 | h5 | h6 | h7 | h8 | h9
      · rw [h1]
        rfl
      · rw [h2]
        rfl
      · rw [h3]
        rfl
      · rw [h4]
        rfl
      · rw [h5]
        rfl
      · rw [h6]
        rfl
      · rw [h7]
        rfl
      · rw [h8]
        cases hq : pyDictGet config "phoneme_type" with
        | none => rfl
        | some v => exact hp v hq
      · rw [h9]
        rfl

/-- Claim C9 witness: for the empty config the nine keys come out in order
and every value is a string. -/
theorem c9_amended_nine_keys_string_values_witness :
    ([("sample_rate", Json.str "22050"), ("n_speakers", Json.str "1"),
      ("language", Json.str "English"), ("comment", Json.str "piper"),
      ("has_espeak", Json.str "1"), ("voice", Json.str "en"),
      ("add_blank", Json.str "1"), ("frontend", Json.str "espeak"),
      ("model_type", Json.str "vits")].map Prod.fst =
      ["sample_rate", "n_speakers", "language", "comment", "has_espeak",
       "voice", "add_blank", "frontend", "model_type"]) ∧
    ∀ kv ∈ [("sample_rate", Json.str "22050"), ("n_speakers", Json.str "1"),
      ("language", Json.str "English"), ("comment", Json.str "piper"),
      ("has_espeak", Json.str "1"), ("voice", Json.str "en"),
      ("add_blank", Json.str "1"), ("frontend", Json.str "espeak"),
      ("model_type", Json.str "vits")], kv.2.isStr = true :=
  c9_amended_nine_keys_string_values "modelfile.onnx" [] _ rfl (fun _ hv => nomatch hv)

/-- Claim C10: a language field that is present but not a JSON object (for
example a string) raises nothing and behaves exactly as an absent language
field: the derivation succeeds and equals the derivation on the config with
the field removed. -/
theorem c10_nonobject_language_ignored (p : String) (config : List (String × Json))
    (v : Json) (hv : pyDictGet config "language" = some v) (hobj : v.isObj = false) :
    (derive_language_and_voice p config).isSome = true ∧
    derive_language_and_voice p config =
      derive_language_and_voice p (removeField "language" config) := by
  have h1 : configStage config = some ("", "") := by
    unfold configStage
    rw [hv]
    cases v with
    | obj fs => exact Bool.noConfusion hobj
    | null => rfl
    | bool b => rfl
    | num n => rfl
    | str s => rfl
    | arr xs => rfl
  have h2 : configStage (removeField "language" config) = some ("", "") := by
    unfold configStage
    rw [pyDictGet_removeField]
    rfl
  unfold derive_language_and_voice
  rw [h1, h2]
  exact ⟨rfl, rfl⟩

/-- Claim C10 witness: language set to the string "en_US" (not an object) is
ignored; the filename drives the derivation, as with the field removed. -/
theorem c10_nonobject_language_ignored_witness :
    (derive_language_and_voice "fr_FR.onnx"
        [("language", Json.str "en_US")]).isSome = true ∧
    derive_language_and_voice "fr_FR.onnx" [("language", Json.str "en_US")] =
      derive_language_and_voice "fr_FR.onnx"
        (removeField "language" [("language", Json.str "en_US")]) :=
  c10_nonobject_language_ignored "fr_FR.onnx" [("language", Json.str "en_US")]
    (Json.str "en_US") rfl rfl
